import Mathlib

/-!
Verification of the core election-ledger operations of the AIE Class
Elections application (`app.py`).

The SQLite-backed store is shallowly embedded as an explicit `DB` state:
each table becomes a list of row structures, the singleton `control` table
becomes a single row (its existence is guaranteed by `init_db`, which
inserts the `id = 1` row on startup and `publish_results` re-inserts it if
missing).  Every operation of the source becomes a pure function from `DB`
to `DB` paired with its return value; wall-clock timestamps
(`datetime.now().isoformat()`, `CURRENT_TIMESTAMP`) become explicit `ts`
string parameters, and `json.dumps(details)` on admin-log details is
modelled by storing the key/value pairs themselves.  Auto-increment row
ids, which no operation ever reads back, are omitted from the row
structures.  Python strings are modelled over their character lists;
`str.strip`, `str.upper` and `str.isdigit` are modelled with their ASCII
semantics, which is the alphabet the application works with.
-/

namespace Election

/-- The whitespace characters removed by Python's `str.strip()`
(ASCII range). -/
def isSpaceC (c : Char) : Bool :=
  c == ' ' || c == '\t' || c == '\n' || c == '\x0d' || c == '\x0b' || c == '\x0c'

/-- Python `s.strip()` on the character list: drop the maximal whitespace
prefix, then the maximal whitespace suffix. -/
def pyStripL (l : List Char) : List Char :=
  (l.dropWhile isSpaceC).rdropWhile isSpaceC

/-- Python `s.strip()` on strings. -/
def pyStrip (s : String) : String :=
  ⟨pyStripL s.data⟩

/-- Python `s.upper()` (ASCII semantics), on the character list. -/
def pyUpperL (l : List Char) : List Char :=
  l.map Char.toUpper

/-- Python `c.isdigit()` for an ASCII character. -/
def pyIsDigit (c : Char) : Bool :=
  '0' ≤ c && c ≤ '9'

/-- Python `s.isdigit()`: non-empty and every character a digit. -/
def isdigitL (l : List Char) : Bool :=
  !l.isEmpty && l.all pyIsDigit

/-- Python `int(s)` on a digit string (no sign, decimal). -/
def strToNatL (l : List Char) : Nat :=
  l.foldl (fun a c => a * 10 + (c.toNat - 48)) 0

/-- Python `s[-3:]`: the last three characters (the whole string when it is
shorter than three characters). -/
def lastThree (l : List Char) : List Char :=
  l.drop (l.length - 3)

/-- `valid_student_id(sid)` from `app.py`:
`sid = sid.strip().upper()` followed by
`sid.startswith("AIE24") and sid[-3:].isdigit() and 201 <= int(sid[-3:]) <= 261`. -/
def valid_student_id (s : String) : Bool :=
  let sid := pyUpperL (pyStripL s.data)
  "AIE24".data.isPrefixOf sid && isdigitL (lastThree sid) &&
    (decide (201 ≤ strToNatL (lastThree sid)) && decide (strToNatL (lastThree sid) ≤ 261))

/-- The four fixed voting categories (`CATEGORIES` in `app.py`). -/
def CATEGORIES : List String :=
  ["Hostler Boy", "Dayscholar Boy", "Hostler Girl", "Dayscholar Girl"]

/-- A row of the `students` table (`student_id` is the primary key). -/
structure StudentRow where
  student_id : String
  has_voted : Bool
  vote_timestamp : Option String
deriving DecidableEq, Repr

/-- A row of the `candidates` table; `(name, category)` is `UNIQUE`. -/
structure CandidateRow where
  name : String
  category : String
  added_at : String
deriving DecidableEq, Repr

/-- A row of the `votes` table. -/
structure VoteRow where
  student_id : String
  category : String
  candidate : String
  voted_at : String
deriving DecidableEq, Repr

/-- The singleton `control` row (`id = 1`). -/
structure ControlRow where
  published : Bool
  published_at : Option String
  publish_admin : Option String
deriving DecidableEq, Repr

/-- A row of the append-only `admin_logs` table.  `details` holds the
key/value pairs that the source serialises with `json.dumps`. -/
structure LogRow where
  admin_user : String
  action : String
  details : List (String × String)
  timestamp : String
deriving DecidableEq, Repr

/-- The whole persistent store. -/
structure DB where
  students : List StudentRow
  candidates : List CandidateRow
  votes : List VoteRow
  control : ControlRow
  admin_logs : List LogRow
deriving DecidableEq, Repr

/-- `log_admin_action(action, details)`: append one `admin_logs` row with
`admin_user = "Admin"`. -/
def log_admin_action (action : String) (details : List (String × String))
    (ts : String) (db : DB) : DB :=
  { db with admin_logs := db.admin_logs ++ [⟨"Admin", action, details, ts⟩] }

/-- `SELECT has_voted FROM students WHERE student_id=?` + `fetchone()`. -/
def findStudent (db : DB) (sid : String) : Option StudentRow :=
  db.students.find? (fun r => r.student_id == sid)

/-- `already_voted(sid)`: the stored record exists and shows `has_voted = 1`. -/
def already_voted (db : DB) (sid : String) : Bool :=
  match findStudent db sid with
  | some r => r.has_voted
  | none => false

/-- `INSERT OR REPLACE INTO students (student_id, has_voted, vote_timestamp)
VALUES (?, 1, ?)`: any existing row with this primary key is replaced. -/
def upsertStudent (db : DB) (sid ts : String) : DB :=
  { db with students :=
      db.students.filter (fun r => !(r.student_id == sid)) ++ [⟨sid, true, some ts⟩] }

/-- `SELECT COUNT(*) FROM votes WHERE candidate = ? AND category = ?`
(also the per-candidate count behind `winners` and the vote-count views). -/
def voteCount (db : DB) (name category : String) : Nat :=
  (db.votes.filter (fun v => v.candidate == name && v.category == category)).length

/-- Does a candidate row with this exact `(name, category)` pair exist?
(`UNIQUE(name, category)` violation test / `DELETE ... rowcount > 0`.) -/
def candidateExists (db : DB) (name category : String) : Bool :=
  db.candidates.any (fun c => c.name == name && c.category == category)

/-- `add_candidate(name, category)`: inserts `(name.strip(), category)`;
the `UNIQUE(name, category)` constraint makes the insert raise
`IntegrityError` (caught, `False` returned, nothing committed) when the
pair is already present; on success the action is logged. -/
def add_candidate (name category ts : String) (db : DB) : DB × Bool :=
  if candidateExists db (pyStrip name) category then
    (db, false)
  else
    (log_admin_action "ADD_CANDIDATE" [("name", name), ("category", category)] ts
      { db with candidates := db.candidates ++ [⟨pyStrip name, category, ts⟩] }, true)

/-- `delete_candidate(name, category)`: refuses when the `(candidate,
category)` vote count is positive; otherwise deletes the rows matching the
exact (unstripped) name, reporting "Candidate not found." when none match. -/
def delete_candidate (name category ts : String) (db : DB) : DB × Bool × String :=
  if voteCount db name category > 0 then
    (db, false,
      "Cannot delete " ++ name ++ " from " ++ category ++
        " as they have received " ++ toString (voteCount db name category) ++ " vote(s).")
  else if candidateExists db name category then
    (log_admin_action "DELETE_CANDIDATE" [("name", name), ("category", category)] ts
      { db with candidates :=
          db.candidates.filter (fun c => !(c.name == name && c.category == category)) },
      true, "Candidate " ++ name ++ " deleted from " ++ category ++ ".")
  else
    (db, false, "Candidate not found.")

/-- One vote row of a submission: `INSERT INTO votes (student_id, category,
candidate, voted_at) VALUES (?, ?, ?, ?)`. -/
def mkVoteRow (sid ts : String) (p : String × String) : VoteRow :=
  ⟨sid, p.1, p.2, ts⟩

/-- `submit_votes(sid, selections)` with an explicit storage-failure oracle:
first the already-voted guard (reject, nothing written); then, inside one
transaction, one vote-row insert per `selections` item followed by the
student upsert and `commit`.  `fail = true` models any statement of the
transaction raising: the `except` branch runs `conn.rollback()`, so the
store is left exactly as before the call. -/
def submit_votesF (fail : Bool) (sid : String) (selections : List (String × String))
    (ts : String) (db : DB) : DB × Bool × String :=
  if already_voted db sid then
    (db, false, "You have already voted!")
  else if fail then
    (db, false, "Error submitting vote: storage failure")
  else
    (upsertStudent
      { db with votes := db.votes ++ selections.map (mkVoteRow sid ts) } sid ts,
      true, "Vote submitted successfully!")

/-- `submit_votes` as the source runs it (no storage failure). -/
def submit_votes (sid : String) (selections : List (String × String))
    (ts : String) (db : DB) : DB × Bool × String :=
  submit_votesF false sid selections ts db

/-- `publish_results(admin_user)`: sets the control row to published with
this call's timestamp and admin, logs, and returns `True`. -/
def publish_results (admin_user ts : String) (db : DB) : DB × Bool :=
  (log_admin_action "PUBLISH_RESULTS" [("timestamp", ts)] ts
    { db with control := ⟨true, some ts, some admin_user⟩ }, true)

/-- The record returned by `get_publish_status()`. -/
structure PublishStatus where
  published : Bool
  published_at : Option String
  publish_admin : Option String
deriving DecidableEq, Repr

/-- `get_publish_status()`: read the control row. -/
def get_publish_status (db : DB) : PublishStatus :=
  ⟨db.control.published, db.control.published_at, db.control.publish_admin⟩

/-- `results_published()`. -/
def results_published (db : DB) : Bool :=
  db.control.published

/-- `get_vote_counts()`: `SELECT category, candidate, COUNT(*) FROM votes
GROUP BY category, candidate` (the `ORDER BY` is presentation only and not
modelled). -/
def get_vote_counts (db : DB) : List (String × String × Nat) :=
  ((db.votes.map (fun v => (v.category, v.candidate))).dedup).map
    (fun p => (p.1, p.2, voteCount db p.2 p.1))

/-- `reset_election()`: delete every vote, student and candidate row, reset
the control row to unpublished, and log the reset (admin logs are never
deleted). -/
def reset_election (ts : String) (db : DB) : DB :=
  log_admin_action "RESET_ELECTION" [("timestamp", ts)] ts
    { db with votes := [], students := [], candidates := [],
              control := ⟨false, none, none⟩ }

end Election

namespace Election

/-- The spec's reading of the ID format: the normalized string is exactly
the prefix `AIE24` followed by exactly three digits whose value lies in
[201, 261].  (Spec-side predicate, stated for comparison with the code's
`valid_student_id`.) -/
def specExactValid (s : String) : Prop :=
  ∃ ds : List Char, ds.length = 3 ∧ (∀ c ∈ ds, pyIsDigit c = true) ∧
    pyUpperL (pyStripL s.data) = "AIE24".data ++ ds ∧
    201 ≤ strToNatL ds ∧ strToNatL ds ≤ 261

/-- The code's actual acceptance condition: the normalized string starts
with `AIE24` and its last three characters are digits whose value lies in
[201, 261] (nothing constrains what stands between the prefix and the last
three characters). -/
def amendedValid (s : String) : Prop :=
  "AIE24".data <+: pyUpperL (pyStripL s.data) ∧
  ∃ p ds, pyUpperL (pyStripL s.data) = p ++ ds ∧ ds.length = 3 ∧
    (∀ c ∈ ds, pyIsDigit c = true) ∧
    201 ≤ strToNatL ds ∧ strToNatL ds ≤ 261

end Election

namespace Election

/-- C4 counterexample: `valid_student_id` accepts `"AIE245"`, a string
whose normalized form has length 6, not the length 8 that the claim's
exact format `AIE24` + three digits forces. -/
theorem valid_student_id_not_exact_format :
    valid_student_id "AIE245" = true ∧ ¬ specExactValid "AIE245" := by
  refine ⟨by decide, ?_⟩
  rintro ⟨ds, hlen, -, heq, -⟩
  have h := congrArg List.length heq
  have h6 : (pyUpperL (pyStripL "AIE245".data)).length = 6 := by decide
  rw [h6, List.length_append, hlen] at h
  revert h
  decide

/-- C4 (amended): `valid_student_id s` is true iff the trimmed, upper-cased
string starts with `AIE24` and its last three characters are digits whose
integer value lies in [201, 261]; the exact-format reading fails because
nothing constrains the characters between the prefix and the final three. -/
theorem valid_student_id_characterization (s : String) :
    valid_student_id s = true ↔ amendedValid s := by
  unfold valid_student_id amendedValid
  simp only [Bool.and_eq_true, decide_eq_true_eq, List.isPrefixOf_iff_prefix]
  constructor
  · rintro ⟨⟨hpre, hdig⟩, hlo, hhi⟩
    have hlen5 : 5 ≤ (pyUpperL (pyStripL s.data)).length := by
      have := hpre.length_le
      simpa using this
    refine ⟨hpre, (pyUpperL (pyStripL s.data)).take ((pyUpperL (pyStripL s.data)).length - 3),
      lastThree (pyUpperL (pyStripL s.data)), ?_, ?_, ?_, hlo, hhi⟩
    · exact (List.take_append_drop _ _).symm
    · unfold lastThree
      simp only [List.length_drop]
      omega
    · unfold isdigitL at hdig
      simp only [Bool.and_eq_true, List.all_eq_true] at hdig
      exact hdig.2
  · rintro ⟨hpre, p, ds, heq, hlen, hdig, hlo, hhi⟩
    have hds : lastThree (pyUpperL (pyStripL s.data)) = ds := by
      unfold lastThree
      rw [heq, List.length_append, hlen]
      have hp : p.length = p.length + 3 - 3 := by omega
      exact List.drop_left' hp.symm
    refine ⟨⟨hpre, ?_⟩, ?_, ?_⟩
    · rw [hds]
      unfold isdigitL
      simp only [Bool.and_eq_true, List.all_eq_true]
      refine ⟨?_, hdig⟩
      simp only [Bool.not_eq_true']
      rw [List.isEmpty_eq_false]
      intro hnil
      rw [hnil] at hlen
      simp at hlen
    · rw [hds]; exact hlo
    · rw [hds]; exact hhi

end Election

namespace Election

/-- An empty store (fresh database right after `init_db`). -/
def dbEmpty : DB :=
  ⟨[], [], [], ⟨false, none, none⟩, []⟩

theorem pyStripL_idem (l : List Char) : pyStripL (pyStripL l) = pyStripL l := by
  unfold pyStripL
  have hmm : List.dropWhile isSpaceC (List.dropWhile isSpaceC l) = List.dropWhile isSpaceC l :=
    List.dropWhile_idempotent isSpaceC l
  generalize hM : List.dropWhile isSpaceC l = m at hmm
  obtain ⟨t, ht⟩ := List.rdropWhile_prefix isSpaceC m
  cases hs : m.rdropWhile isSpaceC with
  | nil => simp [hs]
  | cons a as =>
    rw [hs] at ht
    have hpa : ¬ (isSpaceC a = true) := by
      intro hpa
      rw [← ht, List.cons_append, List.dropWhile_cons_of_pos hpa] at hmm
      have hlen := congrArg List.length hmm
      rw [List.length_cons] at hlen
      have hle := (List.dropWhile_sublist (l := as ++ t) isSpaceC).length_le
      omega
    rw [List.dropWhile_cons_of_neg hpa, ← hs, List.rdropWhile_idempotent]

theorem pyStrip_idem (s : String) : pyStrip (pyStrip s) = pyStrip s := by
  unfold pyStrip
  exact congrArg String.mk (pyStripL_idem s.data)

end Election

namespace Election

/-- C5: `delete_candidate` refuses (reporting the vote count, deleting
nothing) whenever the recorded vote count of `(name, category)` is at least
one; when the count is zero and a matching candidate row exists it deletes
exactly the matching candidate rows, reports success, and touches no other
table. -/
theorem delete_candidate_spec (name category ts : String) (db : DB) :
    (1 ≤ voteCount db name category →
      delete_candidate name category ts db =
        (db, false,
          "Cannot delete " ++ name ++ " from " ++ category ++
            " as they have received " ++ toString (voteCount db name category) ++
            " vote(s).")) ∧
    (voteCount db name category = 0 → candidateExists db name category = true →
      (delete_candidate name category ts db).2.1 = true ∧
      (delete_candidate name category ts db).2.2 =
        "Candidate " ++ name ++ " deleted from " ++ category ++ "." ∧
      (∀ c : CandidateRow, c ∈ (delete_candidate name category ts db).1.candidates ↔
        c ∈ db.candidates ∧ ¬(c.name = name ∧ c.category = category)) ∧
      (delete_candidate name category ts db).1.votes = db.votes ∧
      (delete_candidate name category ts db).1.students = db.students ∧
      (delete_candidate name category ts db).1.control = db.control) := by
  constructor
  · intro h
    unfold delete_candidate
    rw [if_pos (by omega : voteCount db name category > 0)]
  · intro h0 hex
    unfold delete_candidate
    rw [if_neg (by omega : ¬ voteCount db name category > 0), if_pos hex]
    refine ⟨rfl, rfl, ?_, rfl, rfl, rfl⟩
    intro c
    simp only [log_admin_action, List.mem_filter, Bool.not_eq_true', Bool.and_eq_false_iff,
      beq_eq_false_iff_ne, ne_eq]
    constructor
    · rintro ⟨hc, hor⟩
      refine ⟨hc, ?_⟩
      rintro ⟨h1, h2⟩
      rcases hor with h | h
      · exact h h1
      · exact h h2
    · rintro ⟨hc, hno⟩
      refine ⟨hc, ?_⟩
      by_cases h1 : c.name = name
      · right
        intro h2
        exact hno ⟨h1, h2⟩
      · left
        exact h1

end Election

namespace Election

/-- Witness store for C5: candidate A of Hostler Boy has one vote,
candidate B has none. -/
def dbC5 : DB :=
  ⟨[⟨"AIE24201", true, some "t"⟩],
   [⟨"A", "Hostler Boy", "t"⟩, ⟨"B", "Hostler Boy", "t"⟩],
   [⟨"AIE24201", "Hostler Boy", "A", "t"⟩],
   ⟨false, none, none⟩, []⟩

/-- C5 witness: deleting the voted-for candidate A fails with the
descriptive reason, deleting the vote-less candidate B succeeds. -/
theorem delete_candidate_spec_witness :
    delete_candidate "A" "Hostler Boy" "t2" dbC5 =
      (dbC5, false,
        "Cannot delete A from Hostler Boy as they have received 1 vote(s).") ∧
    (delete_candidate "B" "Hostler Boy" "t2" dbC5).2.1 = true := by
  constructor
  · exact (delete_candidate_spec "A" "Hostler Boy" "t2" dbC5).1 (by decide)
  · exact (((delete_candidate_spec "B" "Hostler Boy" "t2" dbC5).2 (by decide)) (by decide)).1

end Election

namespace Election

/-- Witness store for C6: candidate X already present in Hostler Boy. -/
def dbC6 : DB :=
  ⟨[], [⟨"X", "Hostler Boy", "t0"⟩], [], ⟨false, none, none⟩, []⟩

/-- C6 counterexample: the pair `(" X", "Hostler Boy")` is absent from the
store (no stored name equals `" X"`), yet `add_candidate " X" "Hostler Boy"`
fails, because the insert first strips the name to `"X"`, which collides
with the existing row. -/
theorem add_candidate_not_exact_pair :
    (add_candidate " X" "Hostler Boy" "t1" dbC6).2 = false ∧
    dbC6.candidates.all (fun c => !(c.name == " X")) = true := by
  decide

/-- C6 (amended): `add_candidate` keys uniqueness on the whitespace-trimmed
name: it inserts `(name.strip(), category)` and succeeds exactly when that
trimmed pair is absent; when the trimmed pair is present it fails leaving
the store unchanged; a second identical call therefore fails, and the same
name under a different (unoccupied) category succeeds. -/
theorem add_candidate_present (name category ts : String) (db : DB)
    (h : candidateExists db (pyStrip name) category = true) :
    add_candidate name category ts db = (db, false) := by
  unfold add_candidate
  rw [if_pos h]

theorem add_candidate_absent (name category ts : String) (db : DB)
    (h : candidateExists db (pyStrip name) category = false) :
    add_candidate name category ts db =
      (log_admin_action "ADD_CANDIDATE" [("name", name), ("category", category)] ts
        { db with candidates := db.candidates ++ [⟨pyStrip name, category, ts⟩] }, true) := by
  unfold add_candidate
  rw [if_neg (by rw [h]; exact Bool.false_ne_true)]

theorem add_candidate_trimmed_unique (name category category2 ts ts2 ts3 : String) (db : DB) :
    (candidateExists db (pyStrip name) category = true →
      add_candidate name category ts db = (db, false)) ∧
    (candidateExists db (pyStrip name) category = false →
      (add_candidate name category ts db).2 = true ∧
      (add_candidate name category ts db).1.candidates =
        db.candidates ++ [⟨pyStrip name, category, ts⟩] ∧
      add_candidate name category ts2 (add_candidate name category ts db).1 =
        ((add_candidate name category ts db).1, false) ∧
      (category2 ≠ category → candidateExists db (pyStrip name) category2 = false →
        (add_candidate name category2 ts3 (add_candidate name category ts db).1).2 = true)) := by
  constructor
  · exact fun h => add_candidate_present name category ts db h
  · intro h
    have e1 := add_candidate_absent name category ts db h
    have hcand : (add_candidate name category ts db).1.candidates =
        db.candidates ++ [⟨pyStrip name, category, ts⟩] := by
      rw [e1]
      rfl
    have hx : candidateExists (add_candidate name category ts db).1 (pyStrip name) category
        = true := by
      unfold candidateExists
      rw [hcand]
      simp
    refine ⟨by rw [e1], hcand, add_candidate_present name category ts2 _ hx, ?_⟩
    intro hneq h2
    have hx2 : candidateExists (add_candidate name category ts db).1 (pyStrip name) category2
        = false := by
      unfold candidateExists
      rw [hcand]
      unfold candidateExists at h2
      simp only [List.any_append, List.any_cons, List.any_nil, Bool.or_false,
        Bool.or_eq_false_iff, Bool.and_eq_false_iff, beq_eq_false_iff_ne, ne_eq]
      exact ⟨h2, Or.inr fun hc => hneq hc.symm⟩
    rw [add_candidate_absent name category2 ts3 _ hx2]

/-- C6 witness: on an empty store, adding X to Hostler Boy succeeds, a
second identical call fails leaving the store unchanged, and adding X to
Hostler Girl still succeeds. -/
theorem add_candidate_trimmed_unique_witness :
    (add_candidate "X" "Hostler Boy" "t1" dbEmpty).2 = true ∧
    add_candidate "X" "Hostler Boy" "t2" (add_candidate "X" "Hostler Boy" "t1" dbEmpty).1 =
      ((add_candidate "X" "Hostler Boy" "t1" dbEmpty).1, false) ∧
    (add_candidate "X" "Hostler Girl" "t3" (add_candidate "X" "Hostler Boy" "t1" dbEmpty).1).2
      = true := by
  obtain ⟨h1, -, h3, h4⟩ :=
    (add_candidate_trimmed_unique "X" "Hostler Boy" "Hostler Girl" "t1" "t2" "t3" dbEmpty).2
      (by decide)
  exact ⟨h1, h3, h4 (by decide) (by decide)⟩

end Election

namespace Election

theorem delete_candidate_notfound (name category ts : String) (db : DB)
    (hv : voteCount db name category = 0)
    (hex : candidateExists db name category = false) :
    delete_candidate name category ts db = (db, false, "Candidate not found.") := by
  unfold delete_candidate
  rw [if_neg (by omega : ¬ voteCount db name category > 0),
      if_neg (by rw [hex]; exact Bool.false_ne_true)]

/-- C10: candidate-name normalization is asymmetric.  `add_candidate`
strips the name before inserting, `delete_candidate` compares it verbatim:
for any name with surrounding whitespace, adding it and then deleting with
the identical untrimmed string deletes nothing and reports "Candidate not
found.", and re-adding the trimmed spelling collides as a duplicate. -/
theorem add_delete_whitespace_asymmetry (name category ts ts2 ts3 : String) (db : DB)
    (hname : pyStrip name ≠ name)
    (habs : candidateExists db (pyStrip name) category = false)
    (hexact : candidateExists db name category = false)
    (hvotes : voteCount db name category = 0) :
    (add_candidate name category ts db).2 = true ∧
    delete_candidate name category ts2 (add_candidate name category ts db).1 =
      ((add_candidate name category ts db).1, false, "Candidate not found.") ∧
    (add_candidate (pyStrip name) category ts3 (add_candidate name category ts db).1).2
      = false ∧
    (add_candidate (pyStrip name) category ts3 (add_candidate name category ts db).1).1
      = (add_candidate name category ts db).1 := by
  have e1 := add_candidate_absent name category ts db habs
  have hcand : (add_candidate name category ts db).1.candidates =
      db.candidates ++ [⟨pyStrip name, category, ts⟩] := by
    rw [e1]
    rfl
  have hvotes1 : (add_candidate name category ts db).1.votes = db.votes := by
    rw [e1]
    rfl
  have hv : voteCount (add_candidate name category ts db).1 name category = 0 := by
    unfold voteCount at hvotes ⊢
    rw [hvotes1]
    exact hvotes
  have hex1 : candidateExists (add_candidate name category ts db).1 name category = false := by
    unfold candidateExists at hexact ⊢
    rw [hcand]
    simp only [List.any_append, List.any_cons, List.any_nil, Bool.or_false,
      Bool.or_eq_false_iff, Bool.and_eq_false_iff, beq_eq_false_iff_ne, ne_eq]
    exact ⟨hexact, Or.inl hname⟩
  have hx : candidateExists (add_candidate name category ts db).1 (pyStrip (pyStrip name))
      category = true := by
    rw [pyStrip_idem]
    unfold candidateExists
    rw [hcand]
    simp
  have e2 := add_candidate_present (pyStrip name) category ts3 _ hx
  exact ⟨by rw [e1], delete_candidate_notfound name category ts2 _ hv hex1,
    by rw [e2], by rw [e2]⟩

/-- C10 witness: on an empty store, adding `" X "` succeeds (stored as
`"X"`), deleting with the untrimmed `" X "` reports "Candidate not found.",
and re-adding the trimmed spelling fails as a duplicate. -/
theorem add_delete_whitespace_asymmetry_witness :
    (add_candidate " X " "Hostler Boy" "t1" dbEmpty).2 = true ∧
    delete_candidate " X " "Hostler Boy" "t2" (add_candidate " X " "Hostler Boy" "t1" dbEmpty).1 =
      ((add_candidate " X " "Hostler Boy" "t1" dbEmpty).1, false, "Candidate not found.") ∧
    (add_candidate (pyStrip " X ") "Hostler Boy" "t3"
      (add_candidate " X " "Hostler Boy" "t1" dbEmpty).1).2 = false := by
  obtain ⟨h1, h2, h3, -⟩ :=
    add_delete_whitespace_asymmetry " X " "Hostler Boy" "t1" "t2" "t3" dbEmpty
      (by decide) (by decide) (by decide) (by decide)
  exact ⟨h1, h2, h3⟩

end Election

namespace Election

theorem find?_filter_of_imp {α : Type} (p q : α → Bool) (l : List α)
    (h : ∀ r, q r = true → p r = true) : (l.filter p).find? q = l.find? q := by
  induction l with
  | nil => rfl
  | cons a as ih =>
    cases hq : q a with
    | true =>
      have hp := h a hq
      rw [List.filter_cons_of_pos hp, List.find?_cons_of_pos _ hq, List.find?_cons_of_pos _ hq]
    | false =>
      have hq' : ¬ q a = true := by rw [hq]; exact Bool.false_ne_true
      cases hp : p a with
      | true =>
        rw [List.filter_cons_of_pos hp, List.find?_cons_of_neg _ hq',
          List.find?_cons_of_neg _ hq', ih]
      | false =>
        rw [List.filter_cons_of_neg (by rw [hp]; exact Bool.false_ne_true),
          List.find?_cons_of_neg _ hq', ih]

theorem findStudent_upsert_self (db : DB) (sid ts : String) :
    findStudent (upsertStudent db sid ts) sid = some ⟨sid, true, some ts⟩ := by
  unfold findStudent upsertStudent
  rw [List.find?_append]
  have h1 : (db.students.filter (fun r => !(r.student_id == sid))).find?
      (fun r => r.student_id == sid) = none := by
    rw [List.find?_eq_none]
    intro x hx
    have hx2 := (List.mem_filter.mp hx).2
    simp only [Bool.not_eq_true'] at hx2
    simp [hx2]
  rw [h1]
  simp

theorem already_voted_upsert_self (db : DB) (sid ts : String) :
    already_voted (upsertStudent db sid ts) sid = true := by
  unfold already_voted
  rw [findStudent_upsert_self]

theorem findStudent_upsert_other (db : DB) (sid sid' ts : String) (hne : sid ≠ sid') :
    findStudent (upsertStudent db sid' ts) sid = findStudent db sid := by
  unfold findStudent upsertStudent
  rw [List.find?_append, find?_filter_of_imp]
  · cases hf : db.students.find? (fun r => r.student_id == sid) with
    | some r => rfl
    | none =>
      simp [Ne.symm hne]
  · intro r hr
    simp only [beq_iff_eq] at hr
    simp [hr, hne]

theorem submit_votesF_voted (fail : Bool) (sid : String) (sel : List (String × String))
    (ts : String) (db : DB) (h : already_voted db sid = true) :
    submit_votesF fail sid sel ts db = (db, false, "You have already voted!") := by
  unfold submit_votesF
  rw [if_pos h]

theorem submit_votesF_success (sid : String) (sel : List (String × String))
    (ts : String) (db : DB) (h : already_voted db sid = false) :
    submit_votesF false sid sel ts db =
      (upsertStudent { db with votes := db.votes ++ sel.map (mkVoteRow sid ts) } sid ts,
        true, "Vote submitted successfully!") := by
  unfold submit_votesF
  rw [if_neg (by rw [h]; exact Bool.false_ne_true)]
  rfl

theorem submit_votesF_rollback (sid : String) (sel : List (String × String))
    (ts : String) (db : DB) (h : already_voted db sid = false) :
    submit_votesF true sid sel ts db = (db, false, "Error submitting vote: storage failure") := by
  unfold submit_votesF
  rw [if_neg (by rw [h]; exact Bool.false_ne_true)]
  rfl

end Election

namespace Election

/-- A store in which student AIE24201 has already voted. -/
def dbVoted : DB :=
  ⟨[⟨"AIE24201", true, some "t0"⟩],
   [⟨"A", "Hostler Boy", "t"⟩],
   [⟨"AIE24201", "Hostler Boy", "A", "t0"⟩],
   ⟨false, none, none⟩, []⟩

/-- C1: when the stored record already shows `has_voted`, `submit_votes`
rejects with "You have already voted!" and changes nothing; when the
student has not voted, the first call succeeds, appends exactly one vote
row per selection, leaves exactly one `has_voted = true` record for the
student, and an immediately following second call fails with the same
message and changes nothing. -/
theorem submit_votes_once_only (sid : String) (sel sel2 : List (String × String))
    (ts ts2 : String) (db : DB) :
    (already_voted db sid = true →
      submit_votes sid sel ts db = (db, false, "You have already voted!")) ∧
    (already_voted db sid = false →
      (submit_votes sid sel ts db).2.1 = true ∧
      (submit_votes sid sel ts db).1.votes = db.votes ++ sel.map (mkVoteRow sid ts) ∧
      (submit_votes sid sel ts db).1.students.filter (fun r => r.student_id == sid)
        = [⟨sid, true, some ts⟩] ∧
      submit_votes sid sel2 ts2 (submit_votes sid sel ts db).1 =
        ((submit_votes sid sel ts db).1, false, "You have already voted!")) := by
  constructor
  · intro h
    exact submit_votesF_voted false sid sel ts db h
  · intro h
    have e := submit_votesF_success sid sel ts db h
    have hv : already_voted (submit_votes sid sel ts db).1 sid = true := by
      unfold submit_votes
      rw [e]
      exact already_voted_upsert_self _ sid ts
    refine ⟨?_, ?_, ?_, submit_votesF_voted false sid sel2 ts2 _ hv⟩
    · unfold submit_votes
      rw [e]
    · unfold submit_votes
      rw [e]
      rfl
    · unfold submit_votes
      rw [e]
      unfold upsertStudent
      simp

/-- C1 witness: a fresh student's first submission succeeds and the second
immediately fails; a student already marked voted is rejected outright. -/
theorem submit_votes_once_only_witness :
    (submit_votes "AIE24202" [("Hostler Boy", "A")] "t1" dbEmpty).2.1 = true ∧
    submit_votes "AIE24202" [("Hostler Boy", "A")] "t2"
        (submit_votes "AIE24202" [("Hostler Boy", "A")] "t1" dbEmpty).1 =
      ((submit_votes "AIE24202" [("Hostler Boy", "A")] "t1" dbEmpty).1, false,
        "You have already voted!") ∧
    submit_votes "AIE24201" [("Hostler Boy", "A")] "t3" dbVoted =
      (dbVoted, false, "You have already voted!") := by
  obtain ⟨h1, -, -, h4⟩ :=
    (submit_votes_once_only "AIE24202" [("Hostler Boy", "A")] [("Hostler Boy", "A")]
      "t1" "t2" dbEmpty).2 (by decide)
  exact ⟨h1, h4,
    (submit_votes_once_only "AIE24201" [("Hostler Boy", "A")] [] "t3" "t0" dbVoted).1
      (by decide)⟩

/-- C2: for a student who has not yet voted, `submit_votes` succeeds and
inserts exactly one vote row per selection entry, upserts the student's
record to voted with the submission timestamp, and touches no other table;
if any statement of the transaction fails, the rollback leaves the store
exactly unchanged and a failure result is returned. -/
theorem submit_votes_atomic (sid ts : String) (sel : List (String × String)) (db : DB)
    (h : already_voted db sid = false) :
    (submit_votes sid sel ts db).2.1 = true ∧
    (submit_votes sid sel ts db).1.votes = db.votes ++ sel.map (mkVoteRow sid ts) ∧
    findStudent (submit_votes sid sel ts db).1 sid = some ⟨sid, true, some ts⟩ ∧
    (submit_votes sid sel ts db).1.candidates = db.candidates ∧
    (submit_votes sid sel ts db).1.control = db.control ∧
    (submit_votes sid sel ts db).1.admin_logs = db.admin_logs ∧
    submit_votesF true sid sel ts db = (db, false, "Error submitting vote: storage failure") := by
  have e := submit_votesF_success sid sel ts db h
  refine ⟨by unfold submit_votes; rw [e], by unfold submit_votes; rw [e]; rfl, ?_,
    by unfold submit_votes; rw [e]; rfl, by unfold submit_votes; rw [e]; rfl,
    by unfold submit_votes; rw [e]; rfl, submit_votesF_rollback sid sel ts db h⟩
  unfold submit_votes
  rw [e]
  exact findStudent_upsert_self _ sid ts

/-- C2 witness: a concrete two-category submission appends exactly its two
vote rows; with a storage failure the same submission leaves the empty
store untouched. -/
theorem submit_votes_atomic_witness :
    (submit_votes "AIE24203" [("Hostler Boy", "A"), ("Hostler Girl", "B")] "t1" dbEmpty).1.votes
      = dbEmpty.votes ++
        [("Hostler Boy", "A"), ("Hostler Girl", "B")].map (mkVoteRow "AIE24203" "t1") ∧
    submit_votesF true "AIE24203" [("Hostler Boy", "A"), ("Hostler Girl", "B")] "t1" dbEmpty =
      (dbEmpty, false, "Error submitting vote: storage failure") := by
  refine ⟨(submit_votes_atomic "AIE24203" "t1" [("Hostler Boy", "A"), ("Hostler Girl", "B")]
      dbEmpty (by decide)).2.1,
    (submit_votes_atomic "AIE24203" "t1" [("Hostler Boy", "A"), ("Hostler Girl", "B")]
      dbEmpty (by decide)).2.2.2.2.2.2⟩

end Election

namespace Election

/-- The core mutating operations other than `reset_election`, as invoked by
the presentation layer (return values discarded). -/
inductive AdminOp where
  | submit (fail : Bool) (sid : String) (sel : List (String × String)) (ts : String)
  | addCand (name category ts : String)
  | delCand (name category ts : String)
  | publish (admin ts : String)
  | logAdmin (action : String) (details : List (String × String)) (ts : String)

/-- Run one operation against the store. -/
def applyOp : AdminOp → DB → DB
  | .submit fail sid sel ts, db => (submit_votesF fail sid sel ts db).1
  | .addCand n c ts, db => (add_candidate n c ts db).1
  | .delCand n c ts, db => (delete_candidate n c ts db).1
  | .publish a ts, db => (publish_results a ts db).1
  | .logAdmin a d ts, db => log_admin_action a d ts db

/-- Run a sequence of operations against the store. -/
def applyOps (ops : List AdminOp) (db : DB) : DB :=
  ops.foldl (fun d op => applyOp op d) db

theorem applyOp_voted_mono (op : AdminOp) (db : DB) (sid : String)
    (h : already_voted db sid = true) : already_voted (applyOp op db) sid = true := by
  cases op with
  | submit fail sid' sel ts =>
    show already_voted (submit_votesF fail sid' sel ts db).1 sid = true
    cases hv : already_voted db sid' with
    | true =>
      rw [submit_votesF_voted fail sid' sel ts db hv]
      exact h
    | false =>
      cases fail with
      | true =>
        rw [submit_votesF_rollback sid' sel ts db hv]
        exact h
      | false =>
        rw [submit_votesF_success sid' sel ts db hv]
        by_cases hss : sid = sid'
        · subst hss
          exact already_voted_upsert_self _ sid ts
        · unfold already_voted
          rw [findStudent_upsert_other _ sid sid' ts hss]
          exact h
  | addCand n c ts =>
    show already_voted (add_candidate n c ts db).1 sid = true
    cases hc : candidateExists db (pyStrip n) c with
    | true =>
      rw [add_candidate_present n c ts db hc]
      exact h
    | false =>
      rw [add_candidate_absent n c ts db hc]
      exact h
  | delCand n c ts =>
    show already_voted (delete_candidate n c ts db).1 sid = true
    unfold delete_candidate
    split
    · exact h
    · split
      · exact h
      · exact h
  | publish a ts =>
    exact h
  | logAdmin a d ts =>
    exact h

/-- C3: `has_voted` is monotonic.  Across any sequence of `submit_votes`
(with or without storage failures), `add_candidate`, `delete_candidate`,
`publish_results` and `log_admin_action` calls, a student once recorded as
having voted stays recorded as having voted. -/
theorem has_voted_monotonic (ops : List AdminOp) (db : DB) (sid : String)
    (h : already_voted db sid = true) : already_voted (applyOps ops db) sid = true := by
  induction ops generalizing db with
  | nil => exact h
  | cons op rest ih => exact ih (applyOp op db) (applyOp_voted_mono op db sid h)

/-- C3 witness: student AIE24201, already voted, stays voted across a
concrete mixed sequence of all five operations. -/
theorem has_voted_monotonic_witness :
    already_voted
      (applyOps
        [AdminOp.addCand "B" "Hostler Boy" "t1",
         AdminOp.submit false "AIE24205" [("Hostler Boy", "B")] "t2",
         AdminOp.submit true "AIE24206" [("Hostler Boy", "B")] "t3",
         AdminOp.delCand "B" "Hostler Boy" "t4",
         AdminOp.publish "Admin" "t5",
         AdminOp.logAdmin "NOTE" [] "t6"]
        dbVoted) "AIE24201" = true :=
  has_voted_monotonic _ dbVoted "AIE24201" (by decide)

end Election

namespace Election

/-- `SELECT ... FROM votes WHERE category = ?` — the vote rows of one
category. -/
def catVoteRows (db : DB) (cat : String) : List VoteRow :=
  db.votes.filter (fun v => v.category == cat)

/-- `GROUP BY candidate` with `COUNT(*)` for one category: one `(candidate,
votes)` pair per distinct candidate appearing in the category's vote rows. -/
def tallyFor (db : DB) (cat : String) : List (String × Nat) :=
  (((catVoteRows db cat).map (fun v => v.candidate)).dedup).map
    (fun n => (n, voteCount db n cat))

/-- The maximum vote count of a tally (the source reads it off the head of
the `ORDER BY votes DESC` result; on an empty tally the branch is never
taken). -/
def maxCount : List (String × Nat) → Nat
  | [] => 0
  | p :: ps => max p.2 (maxCount ps)

/-- One category of `winners()`: `None` when the category has no vote rows
(the source then skips the category), otherwise the list of all candidates
tied at the maximum count, with that count. -/
def winnersForCat (db : DB) (cat : String) : Option (List String × Nat) :=
  if tallyFor db cat = [] then none
  else
    some (((tallyFor db cat).filter (fun p => p.2 == maxCount (tallyFor db cat))).map
      (fun p => p.1), maxCount (tallyFor db cat))

/-- `winners()`: the pair of per-category dictionaries (`result`,
`winner_votes`), keyed by the fixed categories that have votes. -/
def winners (db : DB) : List (String × List String) × List (String × Nat) :=
  (CATEGORIES.filterMap (fun cat => (winnersForCat db cat).map (fun p => (cat, p.1))),
   CATEGORIES.filterMap (fun cat => (winnersForCat db cat).map (fun p => (cat, p.2))))

theorem le_maxCount (t : List (String × Nat)) (p : String × Nat) (hp : p ∈ t) :
    p.2 ≤ maxCount t := by
  induction t with
  | nil => cases hp
  | cons a as ih =>
    rcases List.mem_cons.mp hp with h | h
    · rw [h]
      exact Nat.le_max_left _ _
    · exact Nat.le_trans (ih h) (Nat.le_max_right _ _)

theorem maxCount_mem (t : List (String × Nat)) (ht : t ≠ []) :
    ∃ p ∈ t, p.2 = maxCount t := by
  induction t with
  | nil => exact absurd rfl ht
  | cons a as ih =>
    by_cases hnil : as = []
    · subst hnil
      refine ⟨a, List.mem_cons_self _ _, ?_⟩
      show a.2 = max a.2 (maxCount [])
      show a.2 = max a.2 0
      exact (Nat.max_zero a.2).symm
    · obtain ⟨r, hr, hre⟩ := ih hnil
      by_cases hle : a.2 ≤ maxCount as
      · refine ⟨r, List.mem_cons_of_mem _ hr, ?_⟩
        show r.2 = max a.2 (maxCount as)
        rw [Nat.max_eq_right hle]
        exact hre
      · refine ⟨a, List.mem_cons_self _ _, ?_⟩
        show a.2 = max a.2 (maxCount as)
        rw [Nat.max_eq_left (Nat.le_of_not_le hle)]

theorem tallyFor_mem_iff (db : DB) (cat n : String) (k : Nat) :
    (n, k) ∈ tallyFor db cat ↔ k = voteCount db n cat ∧ 1 ≤ voteCount db n cat := by
  unfold tallyFor
  constructor
  · intro hmem
    obtain ⟨n', hn', heq⟩ := List.mem_map.mp hmem
    obtain ⟨hn, hk⟩ := Prod.mk.injEq .. ▸ heq
    subst hn
    refine ⟨hk.symm, ?_⟩
    have hn2 := List.mem_dedup.mp hn'
    obtain ⟨v, hv, hveq⟩ := List.mem_map.mp hn2
    have hv2 := List.mem_filter.mp hv
    have hvin : v ∈ db.votes.filter (fun w => w.candidate == n' && w.category == cat) := by
      refine List.mem_filter.mpr ⟨hv2.1, ?_⟩
      simp only [Bool.and_eq_true, beq_iff_eq]
      exact ⟨hveq, by simpa using hv2.2⟩
    have := List.length_pos_of_mem hvin
    unfold voteCount
    omega
  · rintro ⟨hk, hpos⟩
    have hne : db.votes.filter (fun w => w.candidate == n && w.category == cat) ≠ [] := by
      intro hnil
      unfold voteCount at hpos
      rw [hnil] at hpos
      simp at hpos
    obtain ⟨v, hv⟩ := List.exists_mem_of_ne_nil _ hne
    have hv2 := List.mem_filter.mp hv
    simp only [Bool.and_eq_true, beq_iff_eq] at hv2
    have hvcat : v ∈ catVoteRows db cat :=
      List.mem_filter.mpr ⟨hv2.1, by simp [hv2.2.2]⟩
    have hn : n ∈ ((catVoteRows db cat).map (fun v => v.candidate)).dedup :=
      List.mem_dedup.mpr (List.mem_map.mpr ⟨v, hvcat, hv2.2.1⟩)
    subst hk
    exact List.mem_map.mpr ⟨n, hn, rfl⟩

theorem tallyFor_eq_nil_iff (db : DB) (cat : String) :
    tallyFor db cat = [] ↔ ∀ v ∈ db.votes, ¬ v.category = cat := by
  unfold tallyFor catVoteRows
  simp

end Election

namespace Election

/-- C7 (amended): per category, `winners` returns exactly the candidates
whose vote count equals the category's maximum vote count, together with
that (positive) maximum; a category with zero vote rows yields no entry.
The claim's further "zero candidates yields an empty result" fails: the
tally is computed from the vote rows alone, so votes naming a candidate
with no `candidates` row still produce a winner entry. -/
theorem winners_characterization (db : DB) (cat : String) :
    (winnersForCat db cat = none ↔ ∀ v ∈ db.votes, ¬ v.category = cat) ∧
    (∀ l m, winnersForCat db cat = some (l, m) →
      0 < m ∧ (∀ name, name ∈ l ↔ voteCount db name cat = m) ∧
      (∀ name, voteCount db name cat ≤ m)) ∧
    (∀ l, (cat, l) ∈ (winners db).1 ↔
      cat ∈ CATEGORIES ∧ ∃ m, winnersForCat db cat = some (l, m)) ∧
    (∀ m, (cat, m) ∈ (winners db).2 ↔
      cat ∈ CATEGORIES ∧ ∃ l, winnersForCat db cat = some (l, m)) := by
  refine ⟨?_, ?_, ?_, ?_⟩
  · constructor
    · intro h
      by_cases ht : tallyFor db cat = []
      · exact fun v hv => (tallyFor_eq_nil_iff db cat).mp ht v hv
      · unfold winnersForCat at h
        rw [if_neg ht] at h
        exact absurd h (Option.some_ne_none _)
    · intro h
      unfold winnersForCat
      rw [if_pos ((tallyFor_eq_nil_iff db cat).mpr h)]
  · intro l m heq
    by_cases ht : tallyFor db cat = []
    · unfold winnersForCat at heq
      rw [if_pos ht] at heq
      exact absurd heq.symm (Option.some_ne_none _)
    · unfold winnersForCat at heq
      rw [if_neg ht] at heq
      obtain ⟨hl, hm⟩ := Prod.mk.injEq .. ▸ Option.some.inj heq
      obtain ⟨p, hp, hpe⟩ := maxCount_mem (tallyFor db cat) ht
      have hppos : 1 ≤ p.2 := by
        have := (tallyFor_mem_iff db cat p.1 p.2).mp hp
        omega
      refine ⟨by omega, ?_, ?_⟩
      · intro name
        constructor
        · intro hname
          rw [← hl] at hname
          obtain ⟨q, hq, hqe⟩ := List.mem_map.mp hname
          have hq2 := List.mem_filter.mp hq
          have hqt := (tallyFor_mem_iff db cat q.1 q.2).mp hq2.1
          have hqm : q.2 = maxCount (tallyFor db cat) := by
            have := hq2.2
            simpa using this
          rw [← hqe, ← hqt.1, hqm, hm]
        · intro hvc
          have hpos : 1 ≤ voteCount db name cat := by omega
          have hmem : (name, voteCount db name cat) ∈ tallyFor db cat :=
            (tallyFor_mem_iff db cat name (voteCount db name cat)).mpr ⟨rfl, hpos⟩
          rw [← hl]
          refine List.mem_map.mpr ⟨(name, voteCount db name cat), ?_, rfl⟩
          refine List.mem_filter.mpr ⟨hmem, ?_⟩
          simp [hvc, hm]
      · intro name
        by_cases hz : voteCount db name cat = 0
        · omega
        · have hmem : (name, voteCount db name cat) ∈ tallyFor db cat :=
            (tallyFor_mem_iff db cat name (voteCount db name cat)).mpr ⟨rfl, by omega⟩
          have := le_maxCount (tallyFor db cat) _ hmem
          rw [← hm]
          exact this
  · intro l
    unfold winners
    simp only [List.mem_filterMap]
    constructor
    · rintro ⟨c, hc, hmap⟩
      cases ho : winnersForCat db c with
      | none =>
        rw [ho] at hmap
        exact absurd hmap (by simp)
      | some q =>
        rw [ho] at hmap
        have h2 : (c, q.1) = (cat, l) := by simpa using hmap
        have hceq : c = cat := congrArg Prod.fst h2
        have hleq : q.1 = l := congrArg Prod.snd h2
        subst hceq
        exact ⟨hc, q.2, by rw [ho, ← hleq]⟩
    · rintro ⟨hc, m, ho⟩
      refine ⟨cat, hc, ?_⟩
      rw [ho]
      rfl
  · intro m
    unfold winners
    simp only [List.mem_filterMap]
    constructor
    · rintro ⟨c, hc, hmap⟩
      cases ho : winnersForCat db c with
      | none =>
        rw [ho] at hmap
        exact absurd hmap (by simp)
      | some q =>
        rw [ho] at hmap
        have h2 : (c, q.2) = (cat, m) := by simpa using hmap
        have hceq : c = cat := congrArg Prod.fst h2
        have hmeq : q.2 = m := congrArg Prod.snd h2
        subst hceq
        exact ⟨hc, q.1, by rw [ho, ← hmeq]⟩
    · rintro ⟨hc, lw, ho⟩
      refine ⟨cat, hc, ?_⟩
      rw [ho]
      rfl

end Election

namespace Election

/-- A store with a vote row but no candidate rows at all. -/
def dbGhost : DB :=
  ⟨[⟨"AIE24201", true, some "t"⟩], [],
   [⟨"AIE24201", "Hostler Boy", "Ghost", "t"⟩],
   ⟨false, none, none⟩, []⟩

/-- C7 counterexample: a category with zero candidates does not yield an
empty result — `winners` tallies the vote rows alone, so the Hostler Boy
category reports the voted-for name although the `candidates` table is
empty. -/
theorem winners_zero_candidates_counterexample :
    dbGhost.candidates = [] ∧
    (winners dbGhost).1 = [("Hostler Boy", ["Ghost"])] ∧
    (winners dbGhost).2 = [("Hostler Boy", 1)] := by
  refine ⟨rfl, by decide, by decide⟩

/-- A store realizing the spec's tie example: in Hostler Boy, A has 3
votes, B has 3, C has 1. -/
def dbTie : DB :=
  ⟨[], [⟨"A", "Hostler Boy", "t"⟩, ⟨"B", "Hostler Boy", "t"⟩, ⟨"C", "Hostler Boy", "t"⟩],
   [⟨"AIE24201", "Hostler Boy", "A", "t"⟩,
    ⟨"AIE24202", "Hostler Boy", "A", "t"⟩,
    ⟨"AIE24203", "Hostler Boy", "A", "t"⟩,
    ⟨"AIE24204", "Hostler Boy", "B", "t"⟩,
    ⟨"AIE24205", "Hostler Boy", "B", "t"⟩,
    ⟨"AIE24206", "Hostler Boy", "B", "t"⟩,
    ⟨"AIE24207", "Hostler Boy", "C", "t"⟩],
   ⟨false, none, none⟩, []⟩

/-- C7 witness: on the A=3, B=3, C=1 store the characterization applies
with winners {A, B} at count 3. -/
theorem winners_characterization_witness :
    winnersForCat dbTie "Hostler Boy" = some (["A", "B"], 3) ∧ 0 < 3 ∧
    ("A" ∈ (["A", "B"] : List String) ↔ voteCount dbTie "A" "Hostler Boy" = 3) ∧
    ("C" ∈ (["A", "B"] : List String) ↔ voteCount dbTie "C" "Hostler Boy" = 3) ∧
    voteCount dbTie "C" "Hostler Boy" ≤ 3 := by
  obtain ⟨h0, h1, h2⟩ :=
    (winners_characterization dbTie "Hostler Boy").2.1 ["A", "B"] 3 (by decide)
  exact ⟨by decide, h0, h1 "A", h1 "C", h2 "C"⟩

end Election

namespace Election

/-- A store with published results and one prior admin-log entry. -/
def dbLogged : DB :=
  ⟨[⟨"AIE24201", true, some "t0"⟩],
   [⟨"A", "Hostler Boy", "t0"⟩],
   [⟨"AIE24201", "Hostler Boy", "A", "t0"⟩],
   ⟨true, some "t0", some "Admin"⟩,
   [⟨"Admin", "ADD_CANDIDATE", [("name", "A")], "t0"⟩]⟩

/-- C8: `reset_election` empties the students, candidates and votes tables,
resets the control row to unpublished with null timestamp and admin (so
`vote_counts` is empty and `get_publish_status` reports unpublished), and
only appends to the admin log: every entry recorded before the reset is
still present afterwards. -/
theorem reset_election_spec (ts : String) (db : DB) :
    (reset_election ts db).students = [] ∧
    (reset_election ts db).candidates = [] ∧
    (reset_election ts db).votes = [] ∧
    (reset_election ts db).control = ⟨false, none, none⟩ ∧
    get_vote_counts (reset_election ts db) = [] ∧
    get_publish_status (reset_election ts db) = ⟨false, none, none⟩ ∧
    (reset_election ts db).admin_logs =
      db.admin_logs ++ [⟨"Admin", "RESET_ELECTION", [("timestamp", ts)], ts⟩] ∧
    ∀ e ∈ db.admin_logs, e ∈ (reset_election ts db).admin_logs := by
  refine ⟨rfl, rfl, rfl, rfl, rfl, rfl, rfl, ?_⟩
  intro e he
  unfold reset_election log_admin_action
  exact List.mem_append_left _ he

/-- C8 witness: resetting the populated, published store empties the
tallies, reports unpublished, and keeps the pre-reset log entry. -/
theorem reset_election_spec_witness :
    get_vote_counts (reset_election "t9" dbLogged) = [] ∧
    get_publish_status (reset_election "t9" dbLogged) = ⟨false, none, none⟩ ∧
    (⟨"Admin", "ADD_CANDIDATE", [("name", "A")], "t0"⟩ : LogRow) ∈
      (reset_election "t9" dbLogged).admin_logs := by
  obtain ⟨-, -, -, -, h5, h6, -, h8⟩ := reset_election_spec "t9" dbLogged
  exact ⟨h5, h6, h8 _ (by decide)⟩

/-- C9: publishing is not a no-op when already published — each call to
`publish_results` keeps `published = 1` but overwrites `published_at` and
`publish_admin` with its own timestamp and admin, so after a second call
`get_publish_status` reports the second call's values and the first call's
are lost. -/
theorem publish_results_refreshes (a1 t1 a2 t2 : String) (db : DB) :
    (publish_results a1 t1 db).2 = true ∧
    get_publish_status (publish_results a1 t1 db).1 = ⟨true, some t1, some a1⟩ ∧
    get_publish_status (publish_results a2 t2 (publish_results a1 t1 db).1).1 =
      ⟨true, some t2, some a2⟩ :=
  ⟨rfl, rfl, rfl⟩

end Election

namespace Election

/-- C4 witness: the characterization applied at a concrete accepted ID. -/
theorem valid_student_id_characterization_witness :
    amendedValid " aie24233 " :=
  (valid_student_id_characterization " aie24233 ").mp (by decide)

end Election
